import Mathlib

/-!
# Verification of the OHLC backfill core (`trading_engine_core`)

Shallow embedding of `src/trading_engine_core/ohlc/manager.py` and
`src/trading_engine_core/ohlc/transformer.py`, together with the parts of
`src/trading_engine_core/models.py` they use.

Modelling conventions:
* Python runtime values are the inductive type `PyVal` (dicts as association
  lists, lists, strings, integers, `None`, booleans).  Numeric candle fields
  are abstracted to `Int`: no claim below depends on fractional or
  floating-point arithmetic of the price fields.
* Timestamps and resolution durations are exact millisecond integers.  The
  source computes them through `datetime`/`timedelta` (exact microsecond
  arithmetic) followed by `int(x.timestamp() * 1000)`; at millisecond
  granularity those computations agree with the integer model used here.
* Exceptions are modelled as `Option`/explicit outcome values at the point
  where the source raises or catches them.
* The asynchronous effects (queue, store, exchange client) are parameters of
  the embedded functions; each embedded operation returns the trace of the
  effects it performs, in program order.
-/

/-- A Python runtime value, as far as the OHLC core inspects one. -/
inductive PyVal where
  | vNone : PyVal
  | vBool : Bool → PyVal
  | vInt : Int → PyVal
  | vStr : String → PyVal
  | vList : List PyVal → PyVal
  | vDict : List (String × PyVal) → PyVal
deriving Repr

/-- `d[k]` / `d.get(k)` on a dict value: first matching key, `none` when the
value is not a dict or the key is absent. -/
def dictGet : PyVal → String → Option PyVal
  | .vDict kvs, k => kvs.lookup k
  | _, _ => none

/-- `d.get(k, default)`. -/
def dictGetD (v : PyVal) (k : String) (d : PyVal) : PyVal :=
  (dictGet v k).getD d

/-- Python truthiness, restricted to the value forms modelled here. -/
def truthy : PyVal → Bool
  | .vNone => false
  | .vBool b => b
  | .vInt n => n != 0
  | .vStr s => s != ""
  | .vList xs => !xs.isEmpty
  | .vDict kvs => !kvs.isEmpty

/-- The `OHLCModel` pydantic record of `models.py`, with the fields the OHLC
core reads or writes.  Numeric fields are abstracted to `Int` (see the file
header); optional fields keep their `None` defaults. -/
structure OHLCModel where
  tick : Int
  «open» : Int
  high : Int
  low : Int
  close : Int
  volume : Int
  taker_buy_volume : Int := 0
  taker_sell_volume : Int := 0
  open_interest : Option Int := none
  instrument_name : Option String := none
  resolution : Option String := none
deriving Repr, DecidableEq

/-- A numeric Python value accepted for an `OHLCModel` field.  Booleans,
strings, `None` and containers fail validation. -/
def toNum : PyVal → Option Int
  | .vInt n => some n
  | _ => none

/-- Modelled from the spec: the validating `OHLCModel(...)` constructor
(pydantic library code, not under `src/`).  Per the spec, construction fails
on any non-numeric field and otherwise yields an immutable record carrying
the `instrument_name`/`resolution` context.  The `exchange` keyword argument
passed by the transformer is dropped: `OHLCModel` declares no such field and
its configuration ignores extra fields. -/
def mkOHLCModel (_exchange_name instrument_name resolution_str : String)
    (tick o h l c v : PyVal) : Option OHLCModel :=
  match tick, toNum o, toNum h, toNum l, toNum c, toNum v with
  | .vInt t, some o, some h, some l, some c, some v =>
      some { tick := t, «open» := o, high := h, low := l, close := c, volume := v,
             instrument_name := some instrument_name, resolution := some resolution_str }
  | _, _, _, _, _, _ => none

/-- The `for i, tick_ms in enumerate(ticks)` loop of the transformer: one
record per tick, indexing the five other arrays at the same position.  `none`
models an exception escaping the loop (failed validation, or an index past
the end of a parallel array); the records built before it are discarded by
the caller, exactly as the source's `except` block discards `records`. -/
def buildRecords (exchange_name instrument_name resolution_str : String) :
    List PyVal → List PyVal → List PyVal → List PyVal → List PyVal → List PyVal →
    Option (List OHLCModel)
  | [], _, _, _, _, _ => some []
  | t :: ts, o :: os, h :: hs, l :: ls, c :: cs, v :: vs =>
    match mkOHLCModel exchange_name instrument_name resolution_str t o h l c v with
    | none => none
    | some m =>
      match buildRecords exchange_name instrument_name resolution_str ts os hs ls cs vs with
      | none => none
      | some ms => some (m :: ms)
  | _ :: _, _, _, _, _, _ => none

/-- `transform_tv_data_to_ohlc_models` of `transformer.py`.  Mirrors the
source branch by branch: non-dict input is rejected; the six arrays are read
with `get(key, [])`; any non-list array or length mismatch yields `[]`; an
exception while building records yields `[]`; otherwise the built records
are returned. -/
def transform_tv_data_to_ohlc_models (tv_data : PyVal)
    (exchange_name instrument_name resolution_str : String) : List OHLCModel :=
  match tv_data with
  | .vDict _ =>
    let ticks := dictGetD tv_data "ticks" (.vList [])
    let opens := dictGetD tv_data "open" (.vList [])
    let highs := dictGetD tv_data "high" (.vList [])
    let lows := dictGetD tv_data "low" (.vList [])
    let closes := dictGetD tv_data "close" (.vList [])
    let volumes := dictGetD tv_data "volume" (.vList [])
    match ticks, opens, highs, lows, closes, volumes with
    | .vList ts, .vList os, .vList hs, .vList ls, .vList cs, .vList vs =>
      if ts.length = os.length ∧ os.length = hs.length ∧ hs.length = ls.length ∧
          ls.length = cs.length ∧ cs.length = vs.length then
        match buildRecords exchange_name instrument_name resolution_str ts os hs ls cs vs with
        | some rs => rs
        | none => []
      else []
    | _, _, _, _, _, _ => []
  | _ => []

/-- The combined well-formedness check of the transformer: the payload is a
dict, all six arrays are lists, and their lengths agree. -/
def tvArraysOk (tv_data : PyVal) : Bool :=
  match tv_data with
  | .vDict _ =>
    match dictGetD tv_data "ticks" (.vList []), dictGetD tv_data "open" (.vList []),
        dictGetD tv_data "high" (.vList []), dictGetD tv_data "low" (.vList []),
        dictGetD tv_data "close" (.vList []), dictGetD tv_data "volume" (.vList []) with
    | .vList ts, .vList os, .vList hs, .vList ls, .vList cs, .vList vs =>
      decide (ts.length = os.length ∧ os.length = hs.length ∧ hs.length = ls.length ∧
        ls.length = cs.length ∧ cs.length = vs.length)
    | _, _, _, _, _, _ => false
  | _ => false

/-- The length of the payload's tick array (0 when absent or not a list). -/
def tvTicksLen (tv_data : PyVal) : Nat :=
  match dictGetD tv_data "ticks" (.vList []) with
  | .vList ts => ts.length
  | _ => 0

/-- The Transformer's contract in the spec's words, for comparison with the
source-derived `transform_tv_data_to_ohlc_models`: `none` on any input
defect — non-dict payload, a missing or non-list array, unequal array
lengths, or any single record failing validation — and otherwise the full
validated batch, one record per tick index.  The theorem for C3 proves the
source function returns exactly this batch when it is `some`, and the empty
sequence (never a partial batch) when it is `none`. -/
def transformSpec (tv_data : PyVal)
    (exchange_name instrument_name resolution_str : String) : Option (List OHLCModel) :=
  match tv_data with
  | .vDict _ =>
    match dictGetD tv_data "ticks" (.vList []), dictGetD tv_data "open" (.vList []),
        dictGetD tv_data "high" (.vList []), dictGetD tv_data "low" (.vList []),
        dictGetD tv_data "close" (.vList []), dictGetD tv_data "volume" (.vList []) with
    | .vList ts, .vList os, .vList hs, .vList ls, .vList cs, .vList vs =>
      if ts.length = os.length ∧ os.length = hs.length ∧ hs.length = ls.length ∧
          ls.length = cs.length ∧ cs.length = vs.length then
        buildRecords exchange_name instrument_name resolution_str ts os hs ls cs vs
      else none
    | _, _, _, _, _, _ => none
  | _ => none

/-! ## Paginated Fetcher (`OhlcManager._perform_paginated_ohlc_fetch`) -/

/-- `chunk_advance_ms = int(1000 * resolution_td.total_seconds() * 1000)` of
the source, with the `timedelta` abstracted to its exact millisecond count
(`total_seconds()` is the duration divided by 1000).  Python's `int(...)`
truncates toward zero; the argument here is exactly an integer, so `Int.floor`
coincides with that truncation. -/
def chunk_advance_ms (resolution_ms : Int) : Int :=
  Int.floor ((1000 : ℚ) * ((resolution_ms : ℚ) / 1000) * 1000)

/-- The observable effect of one iteration of the fetcher's `while` loop:
the upper bound passed to `get_historical_ohlc`, the cursor value for the
next iteration, the records handed to `bulk_upsert_ohlc` (empty when the
iteration takes one of the two advance-without-persisting branches), and
whether the iteration raised instead of running to its end:
`response.get("ticks")` on a truthy non-dict response raises
`AttributeError`, which aborts the whole fetch (the exception propagates to
the worker); in that case nothing is persisted and the cursor is not
advanced. -/
structure FetchChunkResult where
  requestedEnd : Int
  nextCursor : Int
  upserted : List OHLCModel
  raised : Bool
deriving Repr

/-- One iteration of the fetcher's loop body (source lines 155–185).  The
client is a function from the requested window to the raw payload.  The
test `not response or not response.get("ticks")` evaluates left to right: a
falsy response advances the cursor to `current_end_ts + 1`; a truthy
response reaches `.get("ticks")`, which on a non-dict raises
`AttributeError` (`raised := true`, aborting the fetch) and on a dict with a
falsy tick series advances the cursor the same way.  An empty transform
also advances; a non-empty transform is persisted and the cursor becomes
`ohlc_models[-1].tick + 1` (`getD 0` is unreachable: the list is non-empty
in that branch). -/
def fetchStep (client : Int → Int → PyVal) (exchange instrument res_str : String)
    (chunk_advance end_ts current_start_ts : Int) : FetchChunkResult :=
  let current_end_ts := min end_ts (current_start_ts + chunk_advance)
  let response := client current_start_ts current_end_ts
  if !truthy response then
    ⟨current_end_ts, current_end_ts + 1, [], false⟩
  else
    match response with
    | .vDict _ =>
      if !truthy (dictGetD response "ticks" .vNone) then
        ⟨current_end_ts, current_end_ts + 1, [], false⟩
      else
        let ohlc_models := transform_tv_data_to_ohlc_models response exchange instrument res_str
        if ohlc_models.isEmpty then
          ⟨current_end_ts, current_end_ts + 1, [], false⟩
        else
          let last_tick_ms := ((ohlc_models.getLast?).map OHLCModel.tick).getD 0
          ⟨current_end_ts, last_tick_ms + 1, ohlc_models, false⟩
    | _ => ⟨current_end_ts, current_start_ts, [], true⟩

/-- The fetcher's `while current_start_ts < end_ts` loop.  `fuel` bounds the
number of iterations the model will unfold; the Boolean result is `true`
exactly when the loop has stopped within `fuel` iterations — either by
reaching its exit condition or because an iteration raised (the
`AttributeError` abort of `fetchStep`), in which case the exception
propagates to the worker — so `false` witnesses that the source would still
be looping.  The list is the concatenation, in order, of all records
bulk-upserted before the loop stopped. -/
def fetchLoop (client : Int → Int → PyVal) (exchange instrument res_str : String)
    (chunk_advance end_ts : Int) : Nat → Int → List OHLCModel × Bool
  | 0, current_start_ts =>
    if current_start_ts < end_ts then ([], false) else ([], true)
  | fuel + 1, current_start_ts =>
    if current_start_ts < end_ts then
      let st := fetchStep client exchange instrument res_str chunk_advance end_ts current_start_ts
      if st.raised then ([], true)
      else
        let rest := fetchLoop client exchange instrument res_str chunk_advance end_ts fuel st.nextCursor
        (st.upserted ++ rest.1, rest.2)
    else ([], true)

/-- The parameter extraction at the head of `_perform_paginated_ohlc_fetch`
(source lines 138–145): six subscript lookups on the work item, evaluated
left to right; `none` models the `KeyError` raised by the first absent key. -/
def extractFetchParams (work_item : PyVal) :
    Option (PyVal × PyVal × PyVal × PyVal × PyVal × PyVal) := do
  let exchange ← dictGet work_item "exchange"
  let instrument ← dictGet work_item "instrument"
  let resolution ← dictGet work_item "resolution"
  let start_ts ← dictGet work_item "start_ts"
  let end_ts ← dictGet work_item "end_ts"
  let market_type ← dictGet work_item "market_type"
  pure (exchange, instrument, resolution, start_ts, end_ts, market_type)

/-! ## An exchange client that faithfully serves a fixed record set -/

/-- A raw candle as the exchange exposes it: a tick and five numeric fields. -/
structure RawCandle where
  tick : Int
  o : Int
  h : Int
  l : Int
  c : Int
  v : Int
deriving Repr, DecidableEq

/-- The `OHLCModel` the transformer produces from a raw candle (with the
instrument/resolution context the fetcher passes). -/
def toModel (instrument_name resolution_str : String) (r : RawCandle) : OHLCModel :=
  { tick := r.tick, «open» := r.o, high := r.h, low := r.l, close := r.c, volume := r.v,
    instrument_name := some instrument_name, resolution := some resolution_str }

/-- The TradingView-style payload for a list of candles: six parallel arrays
under the keys the transformer reads. -/
def mkPayload (cs : List RawCandle) : PyVal :=
  .vDict [("ticks", .vList (cs.map fun r => .vInt r.tick)),
          ("open", .vList (cs.map fun r => .vInt r.o)),
          ("high", .vList (cs.map fun r => .vInt r.h)),
          ("low", .vList (cs.map fun r => .vInt r.l)),
          ("close", .vList (cs.map fun r => .vInt r.c)),
          ("volume", .vList (cs.map fun r => .vInt r.v))]

/-- Modelled from the spec: the exchange client's `get_historical_ohlc`
(`shared_exchange_clients`, not under `src/`).  The spec fetches the "raw
payload for `[cursor, chunk_end]`" — a closed window — and the payload
carries the six equal-length arrays; this client serves, in order, every
record of a fixed set whose tick lies in the requested closed window. -/
def honestClient (db : List RawCandle) : Int → Int → PyVal :=
  fun start_ts end_ts =>
    mkPayload (db.filter fun r => decide (start_ts ≤ r.tick ∧ r.tick ≤ end_ts))

/-! ## Worker (`OhlcManager.run_worker`) -/

/-- The stages inside the worker's `try` block at which an exception can be
raised: client construction, `connect()`, the paginated fetch itself, and
the success-path `close()`. -/
inductive WorkerPhase where
  | construct : WorkerPhase
  | connect : WorkerPhase
  | fetchCall : WorkerPhase
  | closeCall : WorkerPhase
deriving Repr, DecidableEq

/-- The environment's behaviour for one processed item: either every stage
returns normally, or the named stage raises.  An exception at `fetchCall`
stands for a failure inside `_perform_paginated_ohlc_fetch` after its
parameter extraction (network, transform, store); the extraction's own
`KeyError` is modelled separately by `extractFetchParams`. -/
inductive FetchOracle where
  | ok : FetchOracle
  | raiseAt : WorkerPhase → FetchOracle
deriving Repr, DecidableEq

/-- The observable outcome of one worker-loop iteration for a dequeued item:
whether the item was discarded by a validation/configuration check, the
items pushed to the failed-work queue (in order), whether `close()` was
called on the constructed client, whether a client object is still open when
the iteration ends, the phase at which an exception was raised (if any), and
whether the loop proceeds to the next iteration. -/
structure IterOutcome where
  discarded : Bool
  failedEnqueues : List PyVal
  clientClosed : Bool
  clientOpenAfter : Bool
  raised : Option WorkerPhase
  continues : Bool
deriving Repr

/-- `dict.get(key)` against a string-keyed map, as `client_map.get(...)` and
`settings.exchanges.get(...)` behave: a non-string key is simply absent. -/
def lookupByKey (m : String → Bool) : PyVal → Bool
  | .vStr s => m s
  | _ => false

/-- `all(field in work_item for field in required_fields)` (source line 100). -/
def requiredFieldsPresent (work_item : PyVal) : Bool :=
  (dictGet work_item "exchange").isSome && (dictGet work_item "instrument").isSome &&
  (dictGet work_item "resolution").isSome && (dictGet work_item "start_ts").isSome &&
  (dictGet work_item "end_ts").isSome

/-- The `except Exception` handler (source lines 125–130): log, enqueue the
original item onto the failed-work queue, close the client if one is set. -/
def handlerOutcome (work_item : PyVal) (clientSet : Bool) (p : WorkerPhase) : IterOutcome :=
  { discarded := false, failedEnqueues := [work_item], clientClosed := clientSet,
    clientOpenAfter := false, raised := some p, continues := true }

/-- A validation or configuration check failed: log and `continue`. -/
def discardedOutcome : IterOutcome :=
  { discarded := true, failedEnqueues := [], clientClosed := false,
    clientOpenAfter := false, raised := none, continues := true }

/-- The success path (source lines 120–124): client constructed, connected,
fetch completed, client closed and the variable reset to `None`. -/
def successOutcome : IterOutcome :=
  { discarded := false, failedEnqueues := [], clientClosed := true,
    clientOpenAfter := false, raised := none, continues := true }

/-- One iteration of `run_worker` for a dequeued non-`None` value (source
lines 94–130).  `clientMap`/`configMap` tell which exchange keys resolve in
`client_map` and `settings.exchanges`.  Mirrors the source order: type
check, required-field check, client resolution, config resolution, then the
`try` block whose stages are driven by the oracle; when every stage returns
normally but the item lacks one of the six keys the fetcher reads, the
fetcher's own `KeyError` is the fetch-phase exception. -/
def runWorkerIteration (clientMap configMap : String → Bool) (work_item : PyVal)
    (oracle : FetchOracle) : IterOutcome :=
  match work_item with
  | .vDict _ =>
    if requiredFieldsPresent work_item then
      let exchange_name := dictGetD work_item "exchange" .vNone
      if !(lookupByKey clientMap exchange_name) then discardedOutcome
      else if !(lookupByKey configMap exchange_name) then discardedOutcome
      else
        match oracle with
        | .raiseAt .construct => handlerOutcome work_item false .construct
        | .raiseAt .connect => handlerOutcome work_item true .connect
        | .raiseAt .fetchCall => handlerOutcome work_item true .fetchCall
        | .raiseAt .closeCall => handlerOutcome work_item true .closeCall
        | .ok =>
          if (extractFetchParams work_item).isSome then successOutcome
          else handlerOutcome work_item true .fetchCall
    else discardedOutcome
  | _ => discardedOutcome

/-! ## Work Discoverer (`OhlcManager.discover_and_queue_work`) -/

/-- The `settings.backfill` configuration the manager reads at startup. -/
structure BackfillSettings where
  resolutions : List String
  bootstrap_target_candles : Int
  ohlc_backfill_whitelist : List String

/-- The store collaborator: the `instruments` market-type row, the latest
persisted tick for an (exchange, instrument, resolution-duration) triple,
and `_parse_resolution_to_timedelta` abstracted to a millisecond count. -/
structure StoreModel where
  instrument_market_type : String → String → Option String
  fetch_latest_ohlc_timestamp : String → String → Int → Option Int
  parse_resolution_ms : String → Int

/-- The inner per-resolution body of the discovery loop (source lines
50–79): no latest tick yields a BOOTSTRAP item over the trailing
`target_candles * duration` window; a latest tick yields a GAP_FILL item
from `latest + duration` to `now` when that start is in the past, and
nothing otherwise. -/
def workItemFor (store : StoreModel) (now_ms target_candles : Int)
    (exchange_name instrument_name market_type res_str : String) : Option PyVal :=
  let res_ms := store.parse_resolution_ms res_str
  match store.fetch_latest_ohlc_timestamp exchange_name instrument_name res_ms with
  | none =>
    let end_ts := now_ms
    let start_ts := now_ms - target_candles * res_ms
    some (.vDict [("type", .vStr "BOOTSTRAP"), ("exchange", .vStr exchange_name),
      ("instrument", .vStr instrument_name), ("market_type", .vStr market_type),
      ("resolution", .vStr res_str), ("start_ts", .vInt start_ts), ("end_ts", .vInt end_ts)])
  | some latest_db_tick =>
    let next_expected_tick := latest_db_tick + res_ms
    if next_expected_tick < now_ms then
      some (.vDict [("type", .vStr "GAP_FILL"), ("exchange", .vStr exchange_name),
        ("instrument", .vStr instrument_name), ("market_type", .vStr market_type),
        ("resolution", .vStr res_str), ("start_ts", .vInt next_expected_tick),
        ("end_ts", .vInt now_ms)])
    else none

/-- One whitelist instrument (source lines 39–82): the `instruments` row is
queried once; an absent row skips the instrument, otherwise each configured
resolution runs `workItemFor` (one latest-tick query each).  Returns the
number of latest-tick queries and the items enqueued. -/
def discoverInstrument (s : BackfillSettings) (store : StoreModel) (now_ms : Int)
    (exchange_name instrument_name : String) : Nat × List PyVal :=
  match store.instrument_market_type exchange_name instrument_name with
  | none => (0, [])
  | some market_type =>
    (s.resolutions.length,
     s.resolutions.filterMap
       (workItemFor store now_ms s.bootstrap_target_candles exchange_name instrument_name market_type))

/-- The whitelist loop, accumulating (instrument queries, latest-tick
queries, enqueued items) in program order. -/
def discoverLoop (s : BackfillSettings) (store : StoreModel) (now_ms : Int)
    (exchange_name : String) : List String → Nat × Nat × List PyVal
  | [] => (0, 0, [])
  | instrument_name :: rest =>
    let this := discoverInstrument s store now_ms exchange_name instrument_name
    let acc := discoverLoop s store now_ms exchange_name rest
    (acc.1 + 1, acc.2.1 + this.1, this.2 ++ acc.2.2)

/-- The effect trace of one `discover_and_queue_work` call: whether the
connection pool was acquired, how many `instruments` rows and latest-tick
timestamps were queried, and the work items enqueued, in order. -/
structure WorkDiscoveryTrace where
  poolAcquired : Bool
  instrumentQueries : Nat
  latestTickQueries : Nat
  items : List PyVal
deriving Repr

/-- `discover_and_queue_work` (source lines 27–83): an empty (falsy)
whitelist returns before the pool is acquired; otherwise the pool is
acquired once and the whitelist loop runs. -/
def discover_and_queue_work (s : BackfillSettings) (store : StoreModel)
    (now_ms : Int) (exchange_name : String) : WorkDiscoveryTrace :=
  if s.ohlc_backfill_whitelist.isEmpty then
    ⟨false, 0, 0, []⟩
  else
    let acc := discoverLoop s store now_ms exchange_name s.ohlc_backfill_whitelist
    ⟨true, acc.1, acc.2.1, acc.2.2⟩

/-- The string value of a work-item field, when the field is present and is
a string. -/
def strField (it : PyVal) (k : String) : Option String :=
  match dictGet it k with
  | some (.vStr s) => some s
  | _ => none

/-- The emitted item targets the given (instrument, resolution) pair. -/
def isForPair (instrument_name res_str : String) (it : PyVal) : Bool :=
  strField it "instrument" == some instrument_name &&
  strField it "resolution" == some res_str

/-- The wire shape every emitted Work Item actually has: a dict whose
`"type"` field is BOOTSTRAP or GAP_FILL, with string identification fields
and integer timestamps. -/
def itemWellFormed (it : PyVal) : Prop :=
  (dictGet it "type" = some (.vStr "BOOTSTRAP") ∨ dictGet it "type" = some (.vStr "GAP_FILL")) ∧
  (∃ s, dictGet it "exchange" = some (.vStr s)) ∧
  (∃ s, dictGet it "instrument" = some (.vStr s)) ∧
  (∃ s, dictGet it "market_type" = some (.vStr s)) ∧
  (∃ s, dictGet it "resolution" = some (.vStr s)) ∧
  (∃ n, dictGet it "start_ts" = some (.vInt n)) ∧
  (∃ n, dictGet it "end_ts" = some (.vInt n))

/-! ## Helper lemmas -/

theorem buildRecords_length {ex inst res : String}
    {ts os hs ls cs vs : List PyVal} {rs : List OHLCModel}
    (h : buildRecords ex inst res ts os hs ls cs vs = some rs) :
    rs.length = ts.length := by
  induction ts generalizing os hs ls cs vs rs with
  | nil => simp [buildRecords] at h; simp [← h]
  | cons t ts ih =>
    cases os with
    | nil => simp [buildRecords] at h
    | cons o os =>
      cases hs with
      | nil => simp [buildRecords] at h
      | cons hh hs =>
        cases ls with
        | nil => simp [buildRecords] at h
        | cons l ls =>
          cases cs with
          | nil => simp [buildRecords] at h
          | cons c cs =>
            cases vs with
            | nil => simp [buildRecords] at h
            | cons v vs =>
              simp only [buildRecords] at h
              cases hm : mkOHLCModel ex inst res t o hh l c v with
              | none => rw [hm] at h; exact absurd h (by simp)
              | some m =>
                rw [hm] at h
                cases hb : buildRecords ex inst res ts os hs ls cs vs with
                | none => rw [hb] at h; exact absurd h (by simp)
                | some ms =>
                  rw [hb] at h
                  simp at h
                  subst h
                  simp [ih hb]

theorem extractFetchParams_eq_none {work_item : PyVal}
    (h : dictGet work_item "market_type" = none) :
    extractFetchParams work_item = none := by
  unfold extractFetchParams
  cases dictGet work_item "exchange" with
  | none => rfl
  | some a =>
    cases dictGet work_item "instrument" with
    | none => rfl
    | some b =>
      cases dictGet work_item "resolution" with
      | none => rfl
      | some c =>
        cases dictGet work_item "start_ts" with
        | none => rfl
        | some d =>
          cases dictGet work_item "end_ts" with
          | none => rfl
          | some e =>
            simp [bind, h]

theorem fetchStep_requestedEnd (client : Int → Int → PyVal)
    (exchange instrument res_str : String) (chunk_advance end_ts c : Int) :
    (fetchStep client exchange instrument res_str chunk_advance end_ts c).requestedEnd =
      min end_ts (c + chunk_advance) := by
  unfold fetchStep
  dsimp only
  split
  · rfl
  · split <;> first
      | rfl
      | (split
         · rfl
         · split <;> rfl)

theorem transform_eq_transformSpec (tv : PyVal) (ex inst res : String) :
    transform_tv_data_to_ohlc_models tv ex inst res = (transformSpec tv ex inst res).getD [] := by
  cases tv with
  | vDict kvs =>
    simp only [transform_tv_data_to_ohlc_models, transformSpec]
    split
    case _ ts os hs ls cs vs h1 h2 h3 h4 h5 h6 =>
      by_cases hlen : ts.length = os.length ∧ os.length = hs.length ∧ hs.length = ls.length ∧
          ls.length = cs.length ∧ cs.length = vs.length
      · simp only [if_pos hlen]
        cases hb : buildRecords ex inst res ts os hs ls cs vs with
        | none => rfl
        | some rs => rfl
      · simp only [if_neg hlen]
        rfl
    case _ => rfl
  | vNone => rfl
  | vBool b => rfl
  | vInt n => rfl
  | vStr s => rfl
  | vList xs => rfl

theorem transformSpec_none_of_arrays_bad (tv : PyVal) (ex inst res : String)
    (h : tvArraysOk tv = false) : transformSpec tv ex inst res = none := by
  cases tv with
  | vDict kvs =>
    simp only [transformSpec]
    split
    case _ ts os hs ls cs vs h1 h2 h3 h4 h5 h6 =>
      simp only [tvArraysOk, h1, h2, h3, h4, h5, h6] at h
      rw [if_neg (by simpa using h)]
    case _ => rfl
  | vNone => rfl
  | vBool b => rfl
  | vInt n => rfl
  | vStr s => rfl
  | vList xs => rfl

theorem transformSpec_length {tv : PyVal} {ex inst res : String} {rs : List OHLCModel}
    (h : transformSpec tv ex inst res = some rs) : rs.length = tvTicksLen tv := by
  cases tv with
  | vDict kvs =>
    simp only [transformSpec] at h
    split at h
    case _ ts os hs ls cs vs h1 h2 h3 h4 h5 h6 =>
      split at h
      case isTrue hlen =>
        simp only [tvTicksLen, h1]
        simpa using buildRecords_length h
      case isFalse hlen => exact absurd h (by simp)
    case _ => exact absurd h (by simp)
  | vNone => simp [transformSpec] at h
  | vBool b => simp [transformSpec] at h
  | vInt n => simp [transformSpec] at h
  | vStr s => simp [transformSpec] at h
  | vList xs => simp [transformSpec] at h

theorem transform_eq_nil_of_build_none (tv : PyVal) (ex inst res : String)
    (ts os hs ls cs vs : List PyVal)
    (h1 : dictGetD tv "ticks" (.vList []) = .vList ts)
    (h2 : dictGetD tv "open" (.vList []) = .vList os)
    (h3 : dictGetD tv "high" (.vList []) = .vList hs)
    (h4 : dictGetD tv "low" (.vList []) = .vList ls)
    (h5 : dictGetD tv "close" (.vList []) = .vList cs)
    (h6 : dictGetD tv "volume" (.vList []) = .vList vs)
    (hb : buildRecords ex inst res ts os hs ls cs vs = none) :
    transform_tv_data_to_ohlc_models tv ex inst res = [] := by
  cases tv with
  | vDict kvs =>
    simp only [transform_tv_data_to_ohlc_models]
    split
    case _ tsa osa hsa lsa csa vsa g1 g2 g3 g4 g5 g6 =>
      obtain rfl : tsa = ts := by simpa using g1.symm.trans h1
      obtain rfl : osa = os := by simpa using g2.symm.trans h2
      obtain rfl : hsa = hs := by simpa using g3.symm.trans h3
      obtain rfl : lsa = ls := by simpa using g4.symm.trans h4
      obtain rfl : csa = cs := by simpa using g5.symm.trans h5
      obtain rfl : vsa = vs := by simpa using g6.symm.trans h6
      split
      · simp [hb]
      · rfl
    case _ => rfl
  | vNone => rfl
  | vBool b => rfl
  | vInt n => rfl
  | vStr s => rfl
  | vList xs => rfl

/-- **C3.** The Transformer returns normally on every input (it is a total
function of the payload value), and it agrees with its spec-side contract
`transformSpec` read back as a sequence: any defect yields the empty
sequence and never a partial batch — a payload failing the shape checks
(non-dict, missing/non-list array, unequal lengths) is a defect, and so is a
payload where constructing any single record fails validation — while a
payload with six equal-length list arrays whose records all validate yields
exactly the full batch, one record per index of the tick array. -/
theorem c3_transformer_total_all_or_nothing (tv : PyVal) (ex inst res : String) :
    transform_tv_data_to_ohlc_models tv ex inst res = (transformSpec tv ex inst res).getD [] ∧
    (tvArraysOk tv = false → transformSpec tv ex inst res = none) ∧
    (transformSpec tv ex inst res = none →
      transform_tv_data_to_ohlc_models tv ex inst res = []) ∧
    (∀ ts os hs ls cs vs : List PyVal,
      dictGetD tv "ticks" (.vList []) = .vList ts →
      dictGetD tv "open" (.vList []) = .vList os →
      dictGetD tv "high" (.vList []) = .vList hs →
      dictGetD tv "low" (.vList []) = .vList ls →
      dictGetD tv "close" (.vList []) = .vList cs →
      dictGetD tv "volume" (.vList []) = .vList vs →
      buildRecords ex inst res ts os hs ls cs vs = none →
      transform_tv_data_to_ohlc_models tv ex inst res = []) ∧
    (∀ rs : List OHLCModel, transformSpec tv ex inst res = some rs →
      transform_tv_data_to_ohlc_models tv ex inst res = rs ∧ rs.length = tvTicksLen tv) := by
  have he := transform_eq_transformSpec tv ex inst res
  refine ⟨he, fun h => transformSpec_none_of_arrays_bad tv ex inst res h,
    fun h0 => by rw [he, h0]; rfl,
    fun ts os hs ls cs vs h1 h2 h3 h4 h5 h6 hb =>
      transform_eq_nil_of_build_none tv ex inst res ts os hs ls cs vs h1 h2 h3 h4 h5 h6 hb,
    fun rs hrs => ⟨by rw [he, hrs]; rfl, transformSpec_length hrs⟩⟩

theorem c3_transformer_total_all_or_nothing_witness :
    transformSpec (PyVal.vDict [("ticks", .vList [.vInt 1000, .vInt 2000]),
        ("open", .vList [.vInt 1, .vInt 2]), ("high", .vList [.vInt 3, .vInt 4]),
        ("low", .vList [.vInt 0, .vInt 1]), ("close", .vList [.vInt 2, .vInt 3]),
        ("volume", .vList [.vInt 10, .vInt 20])]) "binance" "BTCUSDT" "1" =
      some [⟨1000, 1, 3, 0, 2, 10, 0, 0, none, some "BTCUSDT", some "1"⟩,
        ⟨2000, 2, 4, 1, 3, 20, 0, 0, none, some "BTCUSDT", some "1"⟩] ∧
    (transform_tv_data_to_ohlc_models (PyVal.vDict [("ticks", .vList [.vInt 1000, .vInt 2000]),
        ("open", .vList [.vInt 1, .vInt 2]), ("high", .vList [.vInt 3, .vInt 4]),
        ("low", .vList [.vInt 0, .vInt 1]), ("close", .vList [.vInt 2, .vInt 3]),
        ("volume", .vList [.vInt 10, .vInt 20])]) "binance" "BTCUSDT" "1" =
      [⟨1000, 1, 3, 0, 2, 10, 0, 0, none, some "BTCUSDT", some "1"⟩,
        ⟨2000, 2, 4, 1, 3, 20, 0, 0, none, some "BTCUSDT", some "1"⟩] ∧
      ([⟨1000, 1, 3, 0, 2, 10, 0, 0, none, some "BTCUSDT", some "1"⟩,
        ⟨2000, 2, 4, 1, 3, 20, 0, 0, none, some "BTCUSDT", some "1"⟩] :
          List OHLCModel).length =
        tvTicksLen (PyVal.vDict [("ticks", .vList [.vInt 1000, .vInt 2000]),
          ("open", .vList [.vInt 1, .vInt 2]), ("high", .vList [.vInt 3, .vInt 4]),
          ("low", .vList [.vInt 0, .vInt 1]), ("close", .vList [.vInt 2, .vInt 3]),
          ("volume", .vList [.vInt 10, .vInt 20])])) :=
  ⟨rfl, (c3_transformer_total_all_or_nothing (PyVal.vDict
      [("ticks", .vList [.vInt 1000, .vInt 2000]),
       ("open", .vList [.vInt 1, .vInt 2]), ("high", .vList [.vInt 3, .vInt 4]),
       ("low", .vList [.vInt 0, .vInt 1]), ("close", .vList [.vInt 2, .vInt 3]),
       ("volume", .vList [.vInt 10, .vInt 20])]) "binance" "BTCUSDT" "1").2.2.2.2 _ rfl⟩

/-- **C8.** The Paginated Fetcher's chunk size is 1000 candles'
worth of milliseconds: `int(1000 * total_seconds() * 1000)` equals
`1000 * duration_ms`, and the upper bound of every requested chunk is
`min(end_ts, cursor + chunk_size_ms)`. -/
theorem c8_chunk_size_and_bounds (duration_ms : Int) (client : Int → Int → PyVal)
    (exchange instrument res_str : String) (end_ts cursor : Int) :
    chunk_advance_ms duration_ms = 1000 * duration_ms ∧
    (fetchStep client exchange instrument res_str (chunk_advance_ms duration_ms)
      end_ts cursor).requestedEnd = min end_ts (cursor + 1000 * duration_ms) := by
  have h : chunk_advance_ms duration_ms = 1000 * duration_ms := by
    unfold chunk_advance_ms
    have e : (1000 : ℚ) * ((duration_ms : ℚ) / 1000) * 1000 = ((1000 * duration_ms : Int) : ℚ) := by
      push_cast
      ring
    rw [e, Int.floor_intCast]
  exact ⟨h, by rw [fetchStep_requestedEnd, h]⟩

/-- **C9.** With an empty backfill whitelist the Discoverer returns before
acquiring the store pool: no pool acquisition, zero instrument queries, zero
latest-tick queries, zero enqueued items. -/
theorem c9_empty_whitelist_no_store_access (s : BackfillSettings) (store : StoreModel)
    (now_ms : Int) (exchange_name : String) (h : s.ohlc_backfill_whitelist = []) :
    discover_and_queue_work s store now_ms exchange_name = ⟨false, 0, 0, []⟩ := by
  simp [discover_and_queue_work, h]

theorem c9_empty_whitelist_no_store_access_witness :
    (⟨["1"], 100, []⟩ : BackfillSettings).ohlc_backfill_whitelist = [] ∧
    discover_and_queue_work ⟨["1"], 100, []⟩
      ⟨fun _ _ => none, fun _ _ _ => none, fun _ => 60000⟩ 0 "deribit" = ⟨false, 0, 0, []⟩ :=
  ⟨rfl, c9_empty_whitelist_no_store_access _ _ _ _ rfl⟩

/-- **C10.** A dequeued dict with the five required fields but no
`market_type` is not discarded as malformed: once the exchange resolves to a
client and configuration, the fetcher's `work_item["market_type"]` lookup
raises, the worker's handler catches it, enqueues the item onto the
failed-work queue, closes the client, and the loop continues. -/
theorem c10_missing_market_type_item_requeued (clientMap configMap : String → Bool)
    (kvs : List (String × PyVal))
    (hreq : requiredFieldsPresent (.vDict kvs) = true)
    (hmt : dictGet (.vDict kvs) "market_type" = none)
    (hcl : lookupByKey clientMap (dictGetD (.vDict kvs) "exchange" .vNone) = true)
    (hcf : lookupByKey configMap (dictGetD (.vDict kvs) "exchange" .vNone) = true) :
    (runWorkerIteration clientMap configMap (.vDict kvs) .ok).discarded = false ∧
    (runWorkerIteration clientMap configMap (.vDict kvs) .ok).failedEnqueues = [.vDict kvs] ∧
    (runWorkerIteration clientMap configMap (.vDict kvs) .ok).raised = some .fetchCall ∧
    (runWorkerIteration clientMap configMap (.vDict kvs) .ok).clientClosed = true ∧
    (runWorkerIteration clientMap configMap (.vDict kvs) .ok).continues = true := by
  have hrun : runWorkerIteration clientMap configMap (.vDict kvs) .ok =
      handlerOutcome (.vDict kvs) true .fetchCall := by
    simp [runWorkerIteration, hreq, hcl, hcf, extractFetchParams_eq_none hmt]
  rw [hrun]
  exact ⟨rfl, rfl, rfl, rfl, rfl⟩

theorem c10_missing_market_type_item_requeued_witness :
    requiredFieldsPresent (.vDict [("type", .vStr "BOOTSTRAP"), ("exchange", .vStr "deribit"),
        ("instrument", .vStr "BTC-PERP"), ("resolution", .vStr "1"),
        ("start_ts", .vInt 0), ("end_ts", .vInt 1000)]) = true ∧
    dictGet (.vDict [("type", .vStr "BOOTSTRAP"), ("exchange", .vStr "deribit"),
        ("instrument", .vStr "BTC-PERP"), ("resolution", .vStr "1"),
        ("start_ts", .vInt 0), ("end_ts", .vInt 1000)]) "market_type" = none ∧
    ((runWorkerIteration (fun s => s == "deribit") (fun s => s == "deribit")
        (.vDict [("type", .vStr "BOOTSTRAP"), ("exchange", .vStr "deribit"),
          ("instrument", .vStr "BTC-PERP"), ("resolution", .vStr "1"),
          ("start_ts", .vInt 0), ("end_ts", .vInt 1000)]) .ok).failedEnqueues =
      [.vDict [("type", .vStr "BOOTSTRAP"), ("exchange", .vStr "deribit"),
        ("instrument", .vStr "BTC-PERP"), ("resolution", .vStr "1"),
        ("start_ts", .vInt 0), ("end_ts", .vInt 1000)]]) :=
  ⟨rfl, rfl,
    (c10_missing_market_type_item_requeued (fun s => s == "deribit") (fun s => s == "deribit")
      [("type", .vStr "BOOTSTRAP"), ("exchange", .vStr "deribit"),
       ("instrument", .vStr "BTC-PERP"), ("resolution", .vStr "1"),
       ("start_ts", .vInt 0), ("end_ts", .vInt 1000)] rfl rfl rfl rfl).2.1⟩

theorem runWorkerIteration_raiseAt (clientMap configMap : String → Bool)
    (kvs : List (String × PyVal)) (ph : WorkerPhase)
    (hreq : requiredFieldsPresent (.vDict kvs) = true)
    (hcl : lookupByKey clientMap (dictGetD (.vDict kvs) "exchange" .vNone) = true)
    (hcf : lookupByKey configMap (dictGetD (.vDict kvs) "exchange" .vNone) = true) :
    runWorkerIteration clientMap configMap (.vDict kvs) (.raiseAt ph) =
      handlerOutcome (.vDict kvs) (decide (ph ≠ WorkerPhase.construct)) ph := by
  cases ph <;> simp [runWorkerIteration, hreq, hcl, hcf]

/-- **C4.** For a dequeued item that passes validation and client/config
resolution, any exception raised inside the worker's `try` block results in
the original item being pushed exactly once onto the failed-work queue, the
loop continuing, and no client left open; whenever the exception occurs
after client construction, `close()` is called on the client. -/
theorem c4_fetch_exception_isolated (clientMap configMap : String → Bool)
    (kvs : List (String × PyVal)) (oracle : FetchOracle) (p : WorkerPhase)
    (hreq : requiredFieldsPresent (.vDict kvs) = true)
    (hcl : lookupByKey clientMap (dictGetD (.vDict kvs) "exchange" .vNone) = true)
    (hcf : lookupByKey configMap (dictGetD (.vDict kvs) "exchange" .vNone) = true)
    (hraised : (runWorkerIteration clientMap configMap (.vDict kvs) oracle).raised = some p) :
    (runWorkerIteration clientMap configMap (.vDict kvs) oracle).failedEnqueues = [.vDict kvs] ∧
    (runWorkerIteration clientMap configMap (.vDict kvs) oracle).continues = true ∧
    (runWorkerIteration clientMap configMap (.vDict kvs) oracle).clientOpenAfter = false ∧
    (p ≠ WorkerPhase.construct →
      (runWorkerIteration clientMap configMap (.vDict kvs) oracle).clientClosed = true) := by
  cases oracle with
  | ok =>
    by_cases hx : (extractFetchParams (PyVal.vDict kvs)).isSome
    · have hrun : runWorkerIteration clientMap configMap (.vDict kvs) .ok = successOutcome := by
        simp [runWorkerIteration, hreq, hcl, hcf, hx]
      rw [hrun] at hraised
      exact absurd hraised (by simp [successOutcome])
    · have hrun : runWorkerIteration clientMap configMap (.vDict kvs) .ok =
          handlerOutcome (.vDict kvs) true .fetchCall := by
        simp only [Bool.not_eq_true] at hx
        simp [runWorkerIteration, hreq, hcl, hcf, hx]
      rw [hrun]
      exact ⟨rfl, rfl, rfl, fun _ => rfl⟩
  | raiseAt ph =>
    rw [runWorkerIteration_raiseAt clientMap configMap kvs ph hreq hcl hcf] at hraised ⊢
    have hp : p = ph := by
      simpa [handlerOutcome] using hraised.symm
    subst hp
    refine ⟨rfl, rfl, rfl, fun hne => ?_⟩
    simp [handlerOutcome, hne]

theorem c4_fetch_exception_isolated_witness :
    requiredFieldsPresent (.vDict [("exchange", .vStr "deribit"),
        ("instrument", .vStr "BTC-PERP"), ("resolution", .vStr "1"),
        ("start_ts", .vInt 0), ("end_ts", .vInt 1000), ("market_type", .vStr "spot")]) = true ∧
    ((runWorkerIteration (fun s => s == "deribit") (fun s => s == "deribit")
        (.vDict [("exchange", .vStr "deribit"), ("instrument", .vStr "BTC-PERP"),
          ("resolution", .vStr "1"), ("start_ts", .vInt 0), ("end_ts", .vInt 1000),
          ("market_type", .vStr "spot")]) (.raiseAt .fetchCall)).failedEnqueues =
      [.vDict [("exchange", .vStr "deribit"), ("instrument", .vStr "BTC-PERP"),
        ("resolution", .vStr "1"), ("start_ts", .vInt 0), ("end_ts", .vInt 1000),
        ("market_type", .vStr "spot")]]) ∧
    (WorkerPhase.fetchCall ≠ WorkerPhase.construct →
      (runWorkerIteration (fun s => s == "deribit") (fun s => s == "deribit")
        (.vDict [("exchange", .vStr "deribit"), ("instrument", .vStr "BTC-PERP"),
          ("resolution", .vStr "1"), ("start_ts", .vInt 0), ("end_ts", .vInt 1000),
          ("market_type", .vStr "spot")]) (.raiseAt .fetchCall)).clientClosed = true) :=
  ⟨rfl,
    (c4_fetch_exception_isolated (fun s => s == "deribit") (fun s => s == "deribit")
      [("exchange", .vStr "deribit"), ("instrument", .vStr "BTC-PERP"),
       ("resolution", .vStr "1"), ("start_ts", .vInt 0), ("end_ts", .vInt 1000),
       ("market_type", .vStr "spot")] (.raiseAt .fetchCall) .fetchCall rfl rfl rfl rfl).1,
    (c4_fetch_exception_isolated (fun s => s == "deribit") (fun s => s == "deribit")
      [("exchange", .vStr "deribit"), ("instrument", .vStr "BTC-PERP"),
       ("resolution", .vStr "1"), ("start_ts", .vInt 0), ("end_ts", .vInt 1000),
       ("market_type", .vStr "spot")] (.raiseAt .fetchCall) .fetchCall rfl rfl rfl rfl).2.2.2⟩

theorem getLast?_map_comm {α β : Type} (f : α → β) :
    ∀ l : List α, (l.map f).getLast? = (l.getLast?).map f
  | [] => rfl
  | [_] => rfl
  | a :: b :: t => by
    simp only [List.map_cons, List.getLast?_cons_cons]
    simpa using getLast?_map_comm f (b :: t)

theorem fetchLoop_exit (client : Int → Int → PyVal) (exchange instrument res_str : String)
    (chunk_advance end_ts : Int) (fuel : Nat) (c : Int) (hc : ¬ c < end_ts) :
    fetchLoop client exchange instrument res_str chunk_advance end_ts fuel c = ([], true) := by
  cases fuel <;> simp [fetchLoop, hc]

theorem fetchLoop_succ_pos (client : Int → Int → PyVal) (exchange instrument res_str : String)
    (chunk_advance end_ts : Int) (fuel : Nat) (c : Int) (hc : c < end_ts)
    (hnr : (fetchStep client exchange instrument res_str chunk_advance end_ts c).raised = false) :
    fetchLoop client exchange instrument res_str chunk_advance end_ts (fuel + 1) c =
      ((fetchStep client exchange instrument res_str chunk_advance end_ts c).upserted ++
        (fetchLoop client exchange instrument res_str chunk_advance end_ts fuel
          (fetchStep client exchange instrument res_str chunk_advance end_ts c).nextCursor).1,
       (fetchLoop client exchange instrument res_str chunk_advance end_ts fuel
          (fetchStep client exchange instrument res_str chunk_advance end_ts c).nextCursor).2) := by
  simp [fetchLoop, hc, hnr]

theorem fetchLoop_succ_raised (client : Int → Int → PyVal)
    (exchange instrument res_str : String)
    (chunk_advance end_ts : Int) (fuel : Nat) (c : Int) (hc : c < end_ts)
    (hr : (fetchStep client exchange instrument res_str chunk_advance end_ts c).raised = true) :
    fetchLoop client exchange instrument res_str chunk_advance end_ts (fuel + 1) c =
      ([], true) := by
  simp [fetchLoop, hc, hr]

theorem fetchStep_cases (client : Int → Int → PyVal)
    (exchange instrument res_str : String) (chunk_advance end_ts c : Int) :
    (fetchStep client exchange instrument res_str chunk_advance end_ts c).raised = true ∨
    ((fetchStep client exchange instrument res_str chunk_advance end_ts c).raised = false ∧
      ((fetchStep client exchange instrument res_str chunk_advance end_ts c).nextCursor =
          min end_ts (c + chunk_advance) + 1 ∨
        ∃ m : OHLCModel,
          (transform_tv_data_to_ohlc_models (client c (min end_ts (c + chunk_advance)))
            exchange instrument res_str).getLast? = some m ∧
          (fetchStep client exchange instrument res_str chunk_advance end_ts c).nextCursor =
            m.tick + 1)) := by
  unfold fetchStep
  dsimp only
  split
  · exact Or.inr ⟨rfl, Or.inl rfl⟩
  · split <;> first
      | exact Or.inl rfl
      | (split
         · exact Or.inr ⟨rfl, Or.inl rfl⟩
         · split
           case isTrue => exact Or.inr ⟨rfl, Or.inl rfl⟩
           case isFalse hne =>
             right
             refine ⟨rfl, Or.inr ?_⟩
             have hne2 : transform_tv_data_to_ohlc_models
                 (client c (min end_ts (c + chunk_advance)))
                 exchange instrument res_str ≠ [] := by
               simpa [List.isEmpty_iff] using hne
             refine ⟨(transform_tv_data_to_ohlc_models
                 (client c (min end_ts (c + chunk_advance)))
                 exchange instrument res_str).getLast hne2,
               List.getLast?_eq_getLast_of_ne_nil hne2, ?_⟩
             rw [List.getLast?_eq_getLast_of_ne_nil hne2]
             simp)

theorem fetchStep_nextCursor_gt (client : Int → Int → PyVal)
    (exchange instrument res_str : String) (chunk_advance end_ts c : Int)
    (hadv : 0 ≤ chunk_advance) (hc : c < end_ts)
    (hnr : (fetchStep client exchange instrument res_str chunk_advance end_ts c).raised = false)
    (hcl : ∀ m : OHLCModel,
      (transform_tv_data_to_ohlc_models (client c (min end_ts (c + chunk_advance)))
        exchange instrument res_str).getLast? = some m → c ≤ m.tick) :
    c < (fetchStep client exchange instrument res_str chunk_advance end_ts c).nextCursor := by
  have hce : c ≤ min end_ts (c + chunk_advance) := le_min (by omega) (by omega)
  rcases fetchStep_cases client exchange instrument res_str chunk_advance end_ts c with
    hr | ⟨hf, hcur | ⟨m, hm, hcur⟩⟩
  · rw [hr] at hnr
    exact absurd hnr (by simp)
  · rw [hcur]
    omega
  · rw [hcur]
    have := hcl m hm
    omega

theorem fetchLoop_completes (client : Int → Int → PyVal)
    (exchange instrument res_str : String) (chunk_advance end_ts : Int)
    (hstep : ∀ c : Int, c < end_ts →
      (fetchStep client exchange instrument res_str chunk_advance end_ts c).raised = false →
      c < (fetchStep client exchange instrument res_str chunk_advance end_ts c).nextCursor) :
    ∀ (fuel : Nat) (c : Int), (end_ts - c).toNat ≤ fuel →
      (fetchLoop client exchange instrument res_str chunk_advance end_ts fuel c).2 = true := by
  intro fuel
  induction fuel with
  | zero =>
    intro c hf
    have hc : ¬ c < end_ts := by omega
    rw [fetchLoop_exit client exchange instrument res_str chunk_advance end_ts 0 c hc]
  | succ n ih =>
    intro c hf
    by_cases hc : c < end_ts
    · by_cases hr : (fetchStep client exchange instrument res_str chunk_advance
          end_ts c).raised = true
      · rw [fetchLoop_succ_raised client exchange instrument res_str chunk_advance
          end_ts n c hc hr]
      · rw [Bool.not_eq_true] at hr
        have hn := hstep c hc hr
        rw [fetchLoop_succ_pos client exchange instrument res_str chunk_advance
          end_ts n c hc hr]
        exact ih _ (by omega)
    · rw [fetchLoop_exit client exchange instrument res_str chunk_advance end_ts (n + 1) c hc]

/-- **C1 (amended).** For every work item with `start_ts < end_ts`, the
Paginated Fetcher's chunk loop stops within `end_ts - start_ts` chunks —
either by reaching the exit condition or because a truthy non-dict response
makes `response.get("ticks")` raise `AttributeError`, aborting the fetch —
*provided* every data-bearing response's transformed batch ends at a tick
not before the requested chunk's start (the code advances the cursor using
only `ohlc_models[-1].tick`); and every iteration that does not raise
strictly increases the cursor.  Without the proviso the claim is false: see
the counterexample, where a data-bearing response whose last tick precedes
the cursor makes the cursor decrease and the loop runs forever. -/
theorem c1_fetch_loop_terminates (client : Int → Int → PyVal)
    (exchange instrument res_str : String)
    (chunk_advance start_ts end_ts : Int) (fuel : Nat)
    (hadv : 0 ≤ chunk_advance) (_hlt : start_ts < end_ts)
    (hcl : ∀ cs ce : Int, ∀ m : OHLCModel,
      (transform_tv_data_to_ohlc_models (client cs ce) exchange instrument res_str).getLast? =
        some m → cs ≤ m.tick)
    (hfuel : (end_ts - start_ts).toNat ≤ fuel) :
    (fetchLoop client exchange instrument res_str chunk_advance end_ts fuel start_ts).2 = true ∧
    ∀ c : Int, c < end_ts →
      (fetchStep client exchange instrument res_str chunk_advance end_ts c).raised = false →
      c < (fetchStep client exchange instrument res_str chunk_advance end_ts c).nextCursor := by
  have hstep : ∀ c : Int, c < end_ts →
      (fetchStep client exchange instrument res_str chunk_advance end_ts c).raised = false →
      c < (fetchStep client exchange instrument res_str chunk_advance end_ts c).nextCursor :=
    fun c hc hnr => fetchStep_nextCursor_gt client exchange instrument res_str chunk_advance
      end_ts c hadv hc hnr (hcl c _)
  exact ⟨fetchLoop_completes client exchange instrument res_str chunk_advance end_ts
    hstep fuel start_ts hfuel, hstep⟩

theorem c1_fetch_loop_terminates_witness :
    ((0 : Int) ≤ 60000) ∧ ((0 : Int) < 5) ∧ (((5 : Int) - 0).toNat ≤ 5) ∧
    ((fetchLoop (fun _ _ => PyVal.vNone) "deribit" "BTC-PERP" "1" 60000 5 5 0).2 = true ∧
      ∀ c : Int, c < 5 →
        (fetchStep (fun _ _ => PyVal.vNone) "deribit" "BTC-PERP" "1" 60000 5 c).raised = false →
        c < (fetchStep (fun _ _ => PyVal.vNone) "deribit" "BTC-PERP" "1" 60000 5 c).nextCursor) :=
  ⟨by decide, by decide, by decide,
    c1_fetch_loop_terminates (fun _ _ => PyVal.vNone) "deribit" "BTC-PERP" "1" 60000 0 5 5
      (by decide) (by decide)
      (fun cs ce m hm => by simp [transform_tv_data_to_ohlc_models] at hm)
      (by decide)⟩

/-- **C1 counterexample.** The claim as stated (termination for *every*
sequence of client responses, every iteration strictly increasing the
cursor) is false on the code: against a client that answers the window
`[cs, ce]` with a well-formed dict payload holding a single candle at tick
`cs - 2` (no exception is raised anywhere), the iteration at cursor 100
(work item `start_ts = 100 < end_ts = 1000000`) moves the cursor to 99 —
strictly *decreasing* it — and the loop is still running after 30 chunks
(and, the cursor decreasing by one each chunk, after any number of
chunks). -/
theorem c1_cursor_decreases_counterexample :
    (fetchStep
      (fun cs _ => PyVal.vDict [("ticks", .vList [.vInt (cs - 2)]), ("open", .vList [.vInt 1]),
        ("high", .vList [.vInt 1]), ("low", .vList [.vInt 1]), ("close", .vList [.vInt 1]),
        ("volume", .vList [.vInt 1])])
      "deribit" "BTC-PERP" "1" 60000 1000000 100).raised = false ∧
    (fetchStep
      (fun cs _ => PyVal.vDict [("ticks", .vList [.vInt (cs - 2)]), ("open", .vList [.vInt 1]),
        ("high", .vList [.vInt 1]), ("low", .vList [.vInt 1]), ("close", .vList [.vInt 1]),
        ("volume", .vList [.vInt 1])])
      "deribit" "BTC-PERP" "1" 60000 1000000 100).nextCursor = 99 ∧ ((99 : Int) < 100) ∧
    (fetchLoop
      (fun cs _ => PyVal.vDict [("ticks", .vList [.vInt (cs - 2)]), ("open", .vList [.vInt 1]),
        ("high", .vList [.vInt 1]), ("low", .vList [.vInt 1]), ("close", .vList [.vInt 1]),
        ("volume", .vList [.vInt 1])])
      "deribit" "BTC-PERP" "1" 60000 1000000 30 100).2 = false :=
  ⟨rfl, rfl, by decide, rfl⟩

theorem buildRecords_mapped (ex inst res : String) :
    ∀ cs : List RawCandle,
      buildRecords ex inst res (cs.map fun r => PyVal.vInt r.tick)
        (cs.map fun r => PyVal.vInt r.o) (cs.map fun r => PyVal.vInt r.h)
        (cs.map fun r => PyVal.vInt r.l) (cs.map fun r => PyVal.vInt r.c)
        (cs.map fun r => PyVal.vInt r.v) = some (cs.map (toModel inst res))
  | [] => rfl
  | r :: rest => by
    have ih := buildRecords_mapped ex inst res rest
    simp [buildRecords, mkOHLCModel, toNum, ih, toModel]

theorem transform_mkPayload (cs : List RawCandle) (ex inst res : String) :
    transform_tv_data_to_ohlc_models (mkPayload cs) ex inst res = cs.map (toModel inst res) := by
  show (if (cs.map fun r => PyVal.vInt r.tick).length = (cs.map fun r => PyVal.vInt r.o).length ∧
      (cs.map fun r => PyVal.vInt r.o).length = (cs.map fun r => PyVal.vInt r.h).length ∧
      (cs.map fun r => PyVal.vInt r.h).length = (cs.map fun r => PyVal.vInt r.l).length ∧
      (cs.map fun r => PyVal.vInt r.l).length = (cs.map fun r => PyVal.vInt r.c).length ∧
      (cs.map fun r => PyVal.vInt r.c).length = (cs.map fun r => PyVal.vInt r.v).length then
      match buildRecords ex inst res (cs.map fun r => PyVal.vInt r.tick)
        (cs.map fun r => PyVal.vInt r.o) (cs.map fun r => PyVal.vInt r.h)
        (cs.map fun r => PyVal.vInt r.l) (cs.map fun r => PyVal.vInt r.c)
        (cs.map fun r => PyVal.vInt r.v) with
      | some rs => rs
      | none => []
    else []) = cs.map (toModel inst res)
  rw [buildRecords_mapped]
  simp [List.length_map]

theorem fetchStep_honest_empty (db : List RawCandle) (ex inst res : String)
    (chunk_advance end_ts c : Int)
    (hS : db.filter
        (fun r => decide (c ≤ r.tick ∧ r.tick ≤ min end_ts (c + chunk_advance))) = []) :
    fetchStep (honestClient db) ex inst res chunk_advance end_ts c =
      ⟨min end_ts (c + chunk_advance), min end_ts (c + chunk_advance) + 1, [], false⟩ := by
  unfold fetchStep honestClient
  dsimp only
  rw [hS]
  rfl

theorem fetchStep_honest_data (db : List RawCandle) (ex inst res : String)
    (chunk_advance end_ts c : Int)
    (hne : db.filter
        (fun r => decide (c ≤ r.tick ∧ r.tick ≤ min end_ts (c + chunk_advance))) ≠ []) :
    fetchStep (honestClient db) ex inst res chunk_advance end_ts c =
      ⟨min end_ts (c + chunk_advance),
       ((db.filter
          (fun r => decide (c ≤ r.tick ∧ r.tick ≤ min end_ts (c + chunk_advance)))).getLast
            hne).tick + 1,
       (db.filter
          (fun r => decide (c ≤ r.tick ∧ r.tick ≤ min end_ts (c + chunk_advance)))).map
            (toModel inst res), false⟩ := by
  unfold fetchStep honestClient
  dsimp only
  have h2 : dictGetD
      (mkPayload (db.filter
        (fun r => decide (c ≤ r.tick ∧ r.tick ≤ min end_ts (c + chunk_advance)))))
      "ticks" .vNone =
      .vList ((db.filter
        (fun r => decide (c ≤ r.tick ∧ r.tick ≤ min end_ts (c + chunk_advance)))).map
          fun r => PyVal.vInt r.tick) := by
    simp [mkPayload, dictGetD, dictGet]
  rw [h2]
  have h1 : truthy (mkPayload (db.filter
      (fun r => decide (c ≤ r.tick ∧ r.tick ≤ min end_ts (c + chunk_advance))))) = true := by
    simp [mkPayload, truthy]
  have h3 : truthy (.vList ((db.filter
      (fun r => decide (c ≤ r.tick ∧ r.tick ≤ min end_ts (c + chunk_advance)))).map
        fun r => PyVal.vInt r.tick)) = true := by
    simpa [truthy, List.isEmpty_iff] using hne
  rw [h1, h3]
  have h4 := transform_mkPayload (db.filter
    (fun r => decide (c ≤ r.tick ∧ r.tick ≤ min end_ts (c + chunk_advance)))) ex inst res
  rw [h4]
  have h5 : ((db.filter
      (fun r => decide (c ≤ r.tick ∧ r.tick ≤ min end_ts (c + chunk_advance)))).map
        (toModel inst res)).isEmpty = false := by
    simpa [List.isEmpty_iff] using hne
  rw [h5]
  have h6 : ((db.filter
      (fun r => decide (c ≤ r.tick ∧ r.tick ≤ min end_ts (c + chunk_advance)))).map
        (toModel inst res)).getLast? =
      some (toModel inst res ((db.filter
        (fun r => decide (c ≤ r.tick ∧ r.tick ≤ min end_ts (c + chunk_advance)))).getLast hne)) := by
    rw [getLast?_map_comm, List.getLast?_eq_getLast_of_ne_nil hne]
    rfl
  rw [h6]
  rfl

theorem honest_fetch_spec (db : List RawCandle) (ex inst res : String)
    (chunk_advance end_ts : Int) (hadv : 0 ≤ chunk_advance) :
    ∀ (fuel : Nat) (c : Int), (end_ts - c).toNat ≤ fuel →
      (fetchLoop (honestClient db) ex inst res chunk_advance end_ts fuel c).2 = true ∧
      (∀ r ∈ db, c ≤ r.tick → r.tick < end_ts →
        toModel inst res r ∈
          (fetchLoop (honestClient db) ex inst res chunk_advance end_ts fuel c).1) ∧
      (∀ m ∈ (fetchLoop (honestClient db) ex inst res chunk_advance end_ts fuel c).1,
        ∃ r ∈ db, m = toModel inst res r ∧ c ≤ r.tick ∧ r.tick ≤ end_ts) := by
  intro fuel
  induction fuel with
  | zero =>
    intro c hf
    have hc : ¬ c < end_ts := by omega
    rw [fetchLoop_exit (honestClient db) ex inst res chunk_advance end_ts 0 c hc]
    refine ⟨rfl, ?_, ?_⟩
    · intro r _ h1 h2
      omega
    · intro m hm
      exact absurd hm (List.not_mem_nil m)
  | succ n ih =>
    intro c hf
    by_cases hc : c < end_ts
    · have hce1 : c ≤ min end_ts (c + chunk_advance) := le_min (by omega) (by omega)
      have hce2 : min end_ts (c + chunk_advance) ≤ end_ts := min_le_left _ _
      by_cases hS : db.filter
          (fun r => decide (c ≤ r.tick ∧ r.tick ≤ min end_ts (c + chunk_advance))) = []
      · have hstepeq := fetchStep_honest_empty db ex inst res chunk_advance end_ts c hS
        have hnr : (fetchStep (honestClient db) ex inst res chunk_advance
            end_ts c).raised = false := by
          rw [hstepeq]
        rw [fetchLoop_succ_pos (honestClient db) ex inst res chunk_advance end_ts n c hc hnr]
        rw [hstepeq]
        dsimp only
        obtain ⟨hdone, hlow, hupp⟩ := ih (min end_ts (c + chunk_advance) + 1) (by omega)
        refine ⟨hdone, ?_, ?_⟩
        · intro r hr h1 h2
          rw [List.nil_append]
          by_cases hle : r.tick ≤ min end_ts (c + chunk_advance)
          · exfalso
            have : r ∈ db.filter
                (fun r => decide (c ≤ r.tick ∧ r.tick ≤ min end_ts (c + chunk_advance))) :=
              List.mem_filter.mpr ⟨hr, decide_eq_true ⟨h1, hle⟩⟩
            rw [hS] at this
            exact absurd this (List.not_mem_nil r)
          · exact hlow r hr (by omega) h2
        · intro m hm
          rw [List.nil_append] at hm
          obtain ⟨r, hr, hm', h1, h2⟩ := hupp m hm
          exact ⟨r, hr, hm', by omega, h2⟩
      · have hstepeq := fetchStep_honest_data db ex inst res chunk_advance end_ts c hS
        have hnr : (fetchStep (honestClient db) ex inst res chunk_advance
            end_ts c).raised = false := by
          rw [hstepeq]
        rw [fetchLoop_succ_pos (honestClient db) ex inst res chunk_advance end_ts n c hc hnr]
        rw [hstepeq]
        dsimp only
        have hlmem : (db.filter
            (fun r => decide (c ≤ r.tick ∧ r.tick ≤ min end_ts (c + chunk_advance)))).getLast hS
            ∈ db.filter
              (fun r => decide (c ≤ r.tick ∧ r.tick ≤ min end_ts (c + chunk_advance))) :=
          List.getLast_mem hS
        obtain ⟨hldb, hlcond⟩ := List.mem_filter.mp hlmem
        obtain ⟨hl1, hl2⟩ := of_decide_eq_true hlcond
        obtain ⟨hdone, hlow, hupp⟩ := ih
          (((db.filter
            (fun r => decide (c ≤ r.tick ∧ r.tick ≤ min end_ts (c + chunk_advance)))).getLast
              hS).tick + 1) (by omega)
        refine ⟨hdone, ?_, ?_⟩
        · intro r hr h1 h2
          rw [List.mem_append]
          by_cases hle : r.tick ≤ min end_ts (c + chunk_advance)
          · left
            exact List.mem_map_of_mem (toModel inst res)
              (List.mem_filter.mpr ⟨hr, decide_eq_true ⟨h1, hle⟩⟩)
          · right
            exact hlow r hr (by omega) h2
        · intro m hm
          rcases List.mem_append.mp hm with hm | hm
          · obtain ⟨r, hrS, hrm⟩ := List.mem_map.mp hm
            obtain ⟨hrdb, hrcond⟩ := List.mem_filter.mp hrS
            obtain ⟨h1, h2⟩ := of_decide_eq_true hrcond
            exact ⟨r, hrdb, hrm.symm, h1, by omega⟩
          · obtain ⟨r, hr, hm', h1, h2⟩ := hupp m hm
            exact ⟨r, hr, hm', by omega, h2⟩
    · rw [fetchLoop_exit (honestClient db) ex inst res chunk_advance end_ts (n + 1) c hc]
      refine ⟨rfl, ?_, ?_⟩
      · intro r _ h1 h2
        omega
      · intro m hm
        exact absurd hm (List.not_mem_nil m)

/-- **C2 (amended).** Against a client serving the records of a fixed set
over the requested closed chunk windows, the Paginated Fetcher persists
every record discoverable in `[start_ts, end_ts)`, and every record it
persists has `start_ts ≤ tick ≤ end_ts`: the upper bound is *inclusive*,
not half-open — a record with tick exactly `end_ts` can be persisted (see
the counterexample), because the final chunk requests the closed window
`[cursor, end_ts]` and the fetcher persists everything the transformer
returns without filtering by range. -/
theorem c2_fetch_persists_closed_range (db : List RawCandle) (exchange inst res : String)
    (chunk_advance start_ts end_ts : Int) (fuel : Nat)
    (hadv : 0 ≤ chunk_advance) (hfuel : (end_ts - start_ts).toNat ≤ fuel) :
    (fetchLoop (honestClient db) exchange inst res chunk_advance end_ts fuel start_ts).2 = true ∧
    (∀ r ∈ db, start_ts ≤ r.tick → r.tick < end_ts →
      toModel inst res r ∈
        (fetchLoop (honestClient db) exchange inst res chunk_advance end_ts fuel start_ts).1) ∧
    (∀ m ∈ (fetchLoop (honestClient db) exchange inst res chunk_advance end_ts fuel start_ts).1,
      ∃ r ∈ db, m = toModel inst res r ∧ start_ts ≤ r.tick ∧ r.tick ≤ end_ts) :=
  honest_fetch_spec db exchange inst res chunk_advance end_ts hadv fuel start_ts hfuel

theorem c2_fetch_persists_closed_range_witness :
    ((0 : Int) ≤ 2000) ∧ (((1000 : Int) - 0).toNat ≤ 1000) ∧
    ((fetchLoop (honestClient [⟨500, 1, 2, 3, 4, 5⟩]) "deribit" "BTC-PERP" "1"
        2000 1000 1000 0).2 = true ∧
      (∀ r ∈ [(⟨500, 1, 2, 3, 4, 5⟩ : RawCandle)], (0 : Int) ≤ r.tick → r.tick < 1000 →
        toModel "BTC-PERP" "1" r ∈
          (fetchLoop (honestClient [⟨500, 1, 2, 3, 4, 5⟩]) "deribit" "BTC-PERP" "1"
            2000 1000 1000 0).1) ∧
      (∀ m ∈ (fetchLoop (honestClient [⟨500, 1, 2, 3, 4, 5⟩]) "deribit" "BTC-PERP" "1"
          2000 1000 1000 0).1,
        ∃ r ∈ [(⟨500, 1, 2, 3, 4, 5⟩ : RawCandle)],
          m = toModel "BTC-PERP" "1" r ∧ (0 : Int) ≤ r.tick ∧ r.tick ≤ 1000)) :=
  ⟨by decide, by decide,
    c2_fetch_persists_closed_range [⟨500, 1, 2, 3, 4, 5⟩] "deribit" "BTC-PERP" "1"
      2000 0 1000 1000 (by decide) (by decide)⟩

/-- **C2 counterexample.** The claim's half-open bound is false on the code:
with `start_ts = 0`, `end_ts = 1000` and a client exposing a single record
at tick 1000 (= `end_ts`), the fetch completes and upserts that record —
a persisted record with `tick ≥ end_ts`. -/
theorem c2_tick_at_end_ts_persisted_counterexample :
    ((fetchLoop (honestClient [⟨1000, 1, 1, 1, 1, 1⟩]) "deribit" "BTC-PERP" "1"
        2000 1000 2 0).1.any (fun m => decide (1000 ≤ m.tick)) = true) ∧
    (fetchLoop (honestClient [⟨1000, 1, 1, 1, 1, 1⟩]) "deribit" "BTC-PERP" "1"
        2000 1000 2 0).2 = true :=
  ⟨rfl, rfl⟩

theorem workItemFor_fields {store : StoreModel} {now_ms target_candles : Int}
    {ex inst mt r : String} {it : PyVal}
    (h : workItemFor store now_ms target_candles ex inst mt r = some it) :
    strField it "instrument" = some inst ∧ strField it "resolution" = some r := by
  unfold workItemFor at h
  dsimp only at h
  cases hl : store.fetch_latest_ohlc_timestamp ex inst (store.parse_resolution_ms r) with
  | none =>
    rw [hl] at h
    simp only [Option.some_inj] at h
    subst h
    exact ⟨rfl, rfl⟩
  | some latest =>
    rw [hl] at h
    dsimp only at h
    by_cases hlt : latest + store.parse_resolution_ms r < now_ms
    · rw [if_pos hlt] at h
      simp only [Option.some_inj] at h
      subst h
      exact ⟨rfl, rfl⟩
    · rw [if_neg hlt] at h
      exact absurd h (by simp)

theorem workItemFor_wellFormed {store : StoreModel} {now_ms target_candles : Int}
    {ex inst mt r : String} {it : PyVal}
    (h : workItemFor store now_ms target_candles ex inst mt r = some it) :
    itemWellFormed it := by
  unfold workItemFor at h
  dsimp only at h
  cases hl : store.fetch_latest_ohlc_timestamp ex inst (store.parse_resolution_ms r) with
  | none =>
    rw [hl] at h
    simp only [Option.some_inj] at h
    subst h
    exact ⟨Or.inl rfl, ⟨ex, rfl⟩, ⟨inst, rfl⟩, ⟨mt, rfl⟩, ⟨r, rfl⟩,
      ⟨now_ms - target_candles * store.parse_resolution_ms r, rfl⟩, ⟨now_ms, rfl⟩⟩
  | some latest =>
    rw [hl] at h
    dsimp only at h
    by_cases hlt : latest + store.parse_resolution_ms r < now_ms
    · rw [if_pos hlt] at h
      simp only [Option.some_inj] at h
      subst h
      exact ⟨Or.inr rfl, ⟨ex, rfl⟩, ⟨inst, rfl⟩, ⟨mt, rfl⟩, ⟨r, rfl⟩,
        ⟨latest + store.parse_resolution_ms r, rfl⟩, ⟨now_ms, rfl⟩⟩
    · rw [if_neg hlt] at h
      exact absurd h (by simp)

theorem filter_pair_not_mem (store : StoreModel) (now_ms target_candles : Int)
    (ex i mt rtarget : String) :
    ∀ rs : List String, rtarget ∉ rs →
      ((rs.filterMap (workItemFor store now_ms target_candles ex i mt)).filter
        (isForPair i rtarget)) = [] := by
  intro rs
  induction rs with
  | nil => intro _; rfl
  | cons r rs ih =>
    intro hnot
    simp only [List.mem_cons, not_or] at hnot
    obtain ⟨hne, hnot'⟩ := hnot
    simp only [List.filterMap_cons]
    cases hw : workItemFor store now_ms target_candles ex i mt r with
    | none => exact ih hnot'
    | some it =>
      have hfields := workItemFor_fields hw
      have hres : (strField it "resolution" == some rtarget) = false := by
        rw [hfields.2]
        simp only [beq_eq_false_iff_ne, ne_eq, Option.some.injEq]
        exact fun hh => hne hh.symm
      have hfalse : isForPair i rtarget it = false := by
        unfold isForPair
        rw [hres, Bool.and_false]
      simp only [List.filter_cons, hfalse]
      exact ih hnot'

theorem filter_pair_of_mem (store : StoreModel) (now_ms target_candles : Int)
    (ex i mt rtarget : String) :
    ∀ rs : List String, rs.Nodup → rtarget ∈ rs →
      ((rs.filterMap (workItemFor store now_ms target_candles ex i mt)).filter
        (isForPair i rtarget)) =
      (workItemFor store now_ms target_candles ex i mt rtarget).toList := by
  intro rs
  induction rs with
  | nil => intro _ hmem; exact absurd hmem (List.not_mem_nil _)
  | cons r rs ih =>
    intro hnd hmem
    rw [List.nodup_cons] at hnd
    rcases List.mem_cons.mp hmem with heq | htail
    · subst heq
      simp only [List.filterMap_cons]
      cases hw : workItemFor store now_ms target_candles ex i mt rtarget with
      | none =>
        simp only [Option.toList_none]
        exact filter_pair_not_mem store now_ms target_candles ex i mt rtarget rs hnd.1
      | some it =>
        have hfields := workItemFor_fields hw
        have htrue : isForPair i rtarget it = true := by
          unfold isForPair
          rw [hfields.1, hfields.2]
          simp
        simp only [List.filter_cons, htrue]
        rw [filter_pair_not_mem store now_ms target_candles ex i mt rtarget rs hnd.1]
        rfl
    · have hner : r ≠ rtarget := fun h => hnd.1 (h ▸ htail)
      simp only [List.filterMap_cons]
      cases hw : workItemFor store now_ms target_candles ex i mt r with
      | none => exact ih hnd.2 htail
      | some it =>
        have hfields := workItemFor_fields hw
        have hres : (strField it "resolution" == some rtarget) = false := by
          rw [hfields.2]
          simp only [beq_eq_false_iff_ne, ne_eq, Option.some.injEq]
          exact hner
        have hfalse : isForPair i rtarget it = false := by
          unfold isForPair
          rw [hres, Bool.and_false]
        simp only [List.filter_cons, hfalse]
        exact ih hnd.2 htail

theorem filter_instrument_ne (store : StoreModel) (now_ms target_candles : Int)
    (ex j mt i rtarget : String) (hne : j ≠ i) :
    ∀ rs : List String,
      ((rs.filterMap (workItemFor store now_ms target_candles ex j mt)).filter
        (isForPair i rtarget)) = [] := by
  intro rs
  induction rs with
  | nil => rfl
  | cons r rs ih =>
    simp only [List.filterMap_cons]
    cases hw : workItemFor store now_ms target_candles ex j mt r with
    | none => exact ih
    | some it =>
      have hfields := workItemFor_fields hw
      have hinst : (strField it "instrument" == some i) = false := by
        rw [hfields.1]
        simp only [beq_eq_false_iff_ne, ne_eq, Option.some.injEq]
        exact hne
      have hfalse : isForPair i rtarget it = false := by
        unfold isForPair
        rw [hinst, Bool.false_and]
      simp only [List.filter_cons, hfalse]
      exact ih

theorem discoverInstrument_filter_ne (s : BackfillSettings) (store : StoreModel)
    (now_ms : Int) (ex j i rtarget : String) (hne : j ≠ i) :
    ((discoverInstrument s store now_ms ex j).2).filter (isForPair i rtarget) = [] := by
  unfold discoverInstrument
  cases store.instrument_market_type ex j with
  | none => rfl
  | some mt =>
    exact filter_instrument_ne store now_ms s.bootstrap_target_candles ex j mt i rtarget hne
      s.resolutions

theorem discoverLoop_filter_not_mem (s : BackfillSettings) (store : StoreModel)
    (now_ms : Int) (ex i rtarget : String) :
    ∀ l : List String, i ∉ l →
      ((discoverLoop s store now_ms ex l).2.2).filter (isForPair i rtarget) = [] := by
  intro l
  induction l with
  | nil => intro _; rfl
  | cons j l ih =>
    intro hnot
    simp only [List.mem_cons, not_or] at hnot
    obtain ⟨hne, hnot'⟩ := hnot
    simp only [discoverLoop, List.filter_append]
    rw [discoverInstrument_filter_ne s store now_ms ex j i rtarget (fun h => hne h.symm),
      ih hnot']
    rfl

theorem discoverLoop_filter_pair (s : BackfillSettings) (store : StoreModel)
    (now_ms : Int) (ex i rtarget : String) :
    ∀ l : List String, l.Nodup → i ∈ l →
      ((discoverLoop s store now_ms ex l).2.2).filter (isForPair i rtarget) =
        ((discoverInstrument s store now_ms ex i).2).filter (isForPair i rtarget) := by
  intro l
  induction l with
  | nil => intro _ hmem; exact absurd hmem (List.not_mem_nil _)
  | cons j l ih =>
    intro hnd hmem
    rw [List.nodup_cons] at hnd
    simp only [discoverLoop, List.filter_append]
    rcases List.mem_cons.mp hmem with heq | htail
    · subst heq
      rw [discoverLoop_filter_not_mem s store now_ms ex i rtarget l hnd.1]
      simp
    · have hne : j ≠ i := fun h => hnd.1 (h ▸ htail)
      rw [discoverInstrument_filter_ne s store now_ms ex j i rtarget hne, ih hnd.2 htail]
      rfl

theorem discoverLoop_items_wellFormed (s : BackfillSettings) (store : StoreModel)
    (now_ms : Int) (exchange_name : String) :
    ∀ l : List String, ∀ it ∈ (discoverLoop s store now_ms exchange_name l).2.2,
      itemWellFormed it := by
  intro l
  induction l with
  | nil => intro it hit; exact absurd hit (List.not_mem_nil _)
  | cons j l ih =>
    intro it hit
    simp only [discoverLoop] at hit
    rcases List.mem_append.mp hit with hmem | hmem
    · unfold discoverInstrument at hmem
      cases hm : store.instrument_market_type exchange_name j with
      | none => rw [hm] at hmem; exact absurd hmem (List.not_mem_nil _)
      | some mt =>
        rw [hm] at hmem
        dsimp only at hmem
        obtain ⟨r, _, hw⟩ := List.mem_filterMap.mp hmem
        exact workItemFor_wellFormed hw
    · exact ih it hmem

/-- **C5 (amended).** Every Work Item the Discoverer enqueues is a dict whose
discriminator field is named `"type"` — not `"kind"` — with value BOOTSTRAP
or GAP_FILL, alongside string fields `exchange`, `instrument`, `market_type`,
`resolution` and integer fields `start_ts`, `end_ts`.  (The claim's field
name `kind` is refuted by the counterexample: emitted items carry no `kind`
key.) -/
theorem c5_work_items_shape (s : BackfillSettings) (store : StoreModel)
    (now_ms : Int) (exchange_name : String) (it : PyVal)
    (hit : it ∈ (discover_and_queue_work s store now_ms exchange_name).items) :
    itemWellFormed it := by
  by_cases hE : s.ohlc_backfill_whitelist.isEmpty
  · have hnil : (discover_and_queue_work s store now_ms exchange_name).items = [] := by
      simp [discover_and_queue_work, hE]
    rw [hnil] at hit
    exact absurd hit (List.not_mem_nil _)
  · have heq : (discover_and_queue_work s store now_ms exchange_name).items =
        (discoverLoop s store now_ms exchange_name s.ohlc_backfill_whitelist).2.2 := by
      simp [discover_and_queue_work, hE]
    rw [heq] at hit
    exact discoverLoop_items_wellFormed s store now_ms exchange_name _ it hit

theorem c5_work_items_shape_witness :
    ((PyVal.vDict [("type", .vStr "BOOTSTRAP"), ("exchange", .vStr "deribit"),
        ("instrument", .vStr "BTC-PERP"), ("market_type", .vStr "future"),
        ("resolution", .vStr "1"), ("start_ts", .vInt (1000000 - 100 * 60000)),
        ("end_ts", .vInt 1000000)]) ∈
      (discover_and_queue_work ⟨["1"], 100, ["BTC-PERP"]⟩
        ⟨fun _ _ => some "future", fun _ _ _ => none, fun _ => 60000⟩
        1000000 "deribit").items) ∧
    itemWellFormed (PyVal.vDict [("type", .vStr "BOOTSTRAP"), ("exchange", .vStr "deribit"),
      ("instrument", .vStr "BTC-PERP"), ("market_type", .vStr "future"),
      ("resolution", .vStr "1"), ("start_ts", .vInt (1000000 - 100 * 60000)),
      ("end_ts", .vInt 1000000)]) :=
  ⟨List.mem_singleton.mpr rfl,
    c5_work_items_shape ⟨["1"], 100, ["BTC-PERP"]⟩
      ⟨fun _ _ => some "future", fun _ _ _ => none, fun _ => 60000⟩ 1000000 "deribit" _
      (List.mem_singleton.mpr rfl)⟩

/-- **C5 counterexample.** The claim's field name is wrong on the code: the
Discoverer emits items keyed `"type"`, and a concrete run emitting exactly
one BOOTSTRAP item produces an item with no `"kind"` field at all. -/
theorem c5_no_kind_field_counterexample :
    ((discover_and_queue_work ⟨["1"], 100, ["BTC-PERP"]⟩
        ⟨fun _ _ => some "future", fun _ _ _ => none, fun _ => 60000⟩
        1000000 "deribit").items.length = 1) ∧
    ((discover_and_queue_work ⟨["1"], 100, ["BTC-PERP"]⟩
        ⟨fun _ _ => some "future", fun _ _ _ => none, fun _ => 60000⟩
        1000000 "deribit").items.all (fun it => (dictGet it "kind").isSome) = false) :=
  ⟨rfl, rfl⟩

/-- **C6.** For a whitelisted instrument present in the store and a
configured resolution with no latest persisted tick, the Discoverer emits
exactly one BOOTSTRAP item for the pair, with
`start_ts = now - target_candles * duration` and `end_ts = now`, so that
`end_ts - start_ts = target_candles * duration`. -/
theorem c6_bootstrap_for_fresh_pair (s : BackfillSettings) (store : StoreModel)
    (now_ms : Int) (ex i r mt : String)
    (hndW : s.ohlc_backfill_whitelist.Nodup) (hiW : i ∈ s.ohlc_backfill_whitelist)
    (hndR : s.resolutions.Nodup) (hrR : r ∈ s.resolutions)
    (hmt : store.instrument_market_type ex i = some mt)
    (hlatest : store.fetch_latest_ohlc_timestamp ex i (store.parse_resolution_ms r) = none) :
    ((discover_and_queue_work s store now_ms ex).items).filter (isForPair i r) =
      [.vDict [("type", .vStr "BOOTSTRAP"), ("exchange", .vStr ex), ("instrument", .vStr i),
        ("market_type", .vStr mt), ("resolution", .vStr r),
        ("start_ts", .vInt (now_ms - s.bootstrap_target_candles * store.parse_resolution_ms r)),
        ("end_ts", .vInt now_ms)]] ∧
    now_ms - (now_ms - s.bootstrap_target_candles * store.parse_resolution_ms r) =
      s.bootstrap_target_candles * store.parse_resolution_ms r := by
  have hne : s.ohlc_backfill_whitelist ≠ [] := List.ne_nil_of_mem hiW
  have hE : s.ohlc_backfill_whitelist.isEmpty = false := by
    simpa [List.isEmpty_iff] using hne
  have hitems : (discover_and_queue_work s store now_ms ex).items =
      (discoverLoop s store now_ms ex s.ohlc_backfill_whitelist).2.2 := by
    simp [discover_and_queue_work, hE]
  refine ⟨?_, by ring⟩
  rw [hitems, discoverLoop_filter_pair s store now_ms ex i r _ hndW hiW]
  unfold discoverInstrument
  rw [hmt]
  dsimp only
  rw [filter_pair_of_mem store now_ms s.bootstrap_target_candles ex i mt r _ hndR hrR]
  unfold workItemFor
  dsimp only
  rw [hlatest]
  rfl

theorem c6_bootstrap_for_fresh_pair_witness :
    (["BTC-PERP"] : List String).Nodup ∧ "BTC-PERP" ∈ (["BTC-PERP"] : List String) ∧
    (["1"] : List String).Nodup ∧ "1" ∈ (["1"] : List String) ∧
    (((discover_and_queue_work ⟨["1"], 100, ["BTC-PERP"]⟩
        ⟨fun _ _ => some "future", fun _ _ _ => none, fun _ => 60000⟩
        1000000 "deribit").items).filter (isForPair "BTC-PERP" "1") =
      [.vDict [("type", .vStr "BOOTSTRAP"), ("exchange", .vStr "deribit"),
        ("instrument", .vStr "BTC-PERP"), ("market_type", .vStr "future"),
        ("resolution", .vStr "1"), ("start_ts", .vInt (1000000 - 100 * 60000)),
        ("end_ts", .vInt 1000000)]] ∧
      (1000000 : Int) - (1000000 - 100 * 60000) = 100 * 60000) :=
  ⟨by decide, by decide, by decide, by decide,
    c6_bootstrap_for_fresh_pair ⟨["1"], 100, ["BTC-PERP"]⟩
      ⟨fun _ _ => some "future", fun _ _ _ => none, fun _ => 60000⟩ 1000000
      "deribit" "BTC-PERP" "1" "future" (by decide) (by decide) (by decide) (by decide)
      rfl rfl⟩

/-- **C7.** For a whitelisted instrument present in the store and a
configured resolution whose latest persisted tick exists, the Discoverer
computes `next_expected = latest + duration` and emits exactly one GAP_FILL
item with `start_ts = next_expected`, `end_ts = now` when
`next_expected < now`, and emits nothing for the pair otherwise. -/
theorem c7_gap_fill_iff_behind (s : BackfillSettings) (store : StoreModel)
    (now_ms latest : Int) (ex i r mt : String)
    (hndW : s.ohlc_backfill_whitelist.Nodup) (hiW : i ∈ s.ohlc_backfill_whitelist)
    (hndR : s.resolutions.Nodup) (hrR : r ∈ s.resolutions)
    (hmt : store.instrument_market_type ex i = some mt)
    (hlatest : store.fetch_latest_ohlc_timestamp ex i (store.parse_resolution_ms r) =
      some latest) :
    (latest + store.parse_resolution_ms r < now_ms →
      ((discover_and_queue_work s store now_ms ex).items).filter (isForPair i r) =
        [.vDict [("type", .vStr "GAP_FILL"), ("exchange", .vStr ex), ("instrument", .vStr i),
          ("market_type", .vStr mt), ("resolution", .vStr r),
          ("start_ts", .vInt (latest + store.parse_resolution_ms r)),
          ("end_ts", .vInt now_ms)]]) ∧
    (¬ latest + store.parse_resolution_ms r < now_ms →
      ((discover_and_queue_work s store now_ms ex).items).filter (isForPair i r) = []) := by
  have hne : s.ohlc_backfill_whitelist ≠ [] := List.ne_nil_of_mem hiW
  have hE : s.ohlc_backfill_whitelist.isEmpty = false := by
    simpa [List.isEmpty_iff] using hne
  have hitems : (discover_and_queue_work s store now_ms ex).items =
      (discoverLoop s store now_ms ex s.ohlc_backfill_whitelist).2.2 := by
    simp [discover_and_queue_work, hE]
  have hred : ((discover_and_queue_work s store now_ms ex).items).filter (isForPair i r) =
      (workItemFor store now_ms s.bootstrap_target_candles ex i mt r).toList := by
    rw [hitems, discoverLoop_filter_pair s store now_ms ex i r _ hndW hiW]
    unfold discoverInstrument
    rw [hmt]
    dsimp only
    exact filter_pair_of_mem store now_ms s.bootstrap_target_candles ex i mt r _ hndR hrR
  constructor
  · intro hlt
    rw [hred]
    unfold workItemFor
    dsimp only
    rw [hlatest]
    dsimp only
    rw [if_pos hlt]
    rfl
  · intro hge
    rw [hred]
    unfold workItemFor
    dsimp only
    rw [hlatest]
    dsimp only
    rw [if_neg hge]
    rfl

theorem c7_gap_fill_iff_behind_witness :
    (["BTC-PERP"] : List String).Nodup ∧ "BTC-PERP" ∈ (["BTC-PERP"] : List String) ∧
    (["1"] : List String).Nodup ∧ "1" ∈ (["1"] : List String) ∧
    ((((0 : Int) + 60000 < 1000000 →
      ((discover_and_queue_work ⟨["1"], 100, ["BTC-PERP"]⟩
          ⟨fun _ _ => some "future", fun _ _ _ => some 0, fun _ => 60000⟩
          1000000 "deribit").items).filter (isForPair "BTC-PERP" "1") =
        [.vDict [("type", .vStr "GAP_FILL"), ("exchange", .vStr "deribit"),
          ("instrument", .vStr "BTC-PERP"), ("market_type", .vStr "future"),
          ("resolution", .vStr "1"), ("start_ts", .vInt (0 + 60000)),
          ("end_ts", .vInt 1000000)]]) ∧
      (¬ (0 : Int) + 60000 < 1000000 →
        ((discover_and_queue_work ⟨["1"], 100, ["BTC-PERP"]⟩
            ⟨fun _ _ => some "future", fun _ _ _ => some 0, fun _ => 60000⟩
            1000000 "deribit").items).filter (isForPair "BTC-PERP" "1") = []))) :=
  ⟨by decide, by decide, by decide, by decide,
    c7_gap_fill_iff_behind ⟨["1"], 100, ["BTC-PERP"]⟩
      ⟨fun _ _ => some "future", fun _ _ _ => some 0, fun _ => 60000⟩ 1000000 0
      "deribit" "BTC-PERP" "1" "future" (by decide) (by decide) (by decide) (by decide)
      rfl rfl⟩
